import Mathlib

/-!
Verification of the backend-service pool and NEG controller of this
repository (`pkg/backends/backends.go` and the NEG controller file).

The Go code is shallowly embedded: remote-cloud interactions are modelled by
explicit outcome parameters (what the remote call would return) and the calls
a function issues are collected in an explicit trace list, so that
"no update call is issued" and "the remaining groups are not queried" are
provable statements.  Machine integers (int32/int64) are modelled as `Int`;
Go errors are modelled as `String` or as the `RemoteError` taxonomy below;
`(T, error)` results become products with `Option`/`Except`.

Helper code of the repository that lives outside the provided source file
(`pkg/utils`, `pkg/backends/features`, `pkg/neg/types`, `pkg/annotations`) is
modelled from the spec; each such definition carries a doc comment starting
with `Modelled from the spec:`.
-/

set_option autoImplicit false

/-- Group reference held by one attached backend of a backend service
(`compute.Backend.Group`). -/
structure Backend where
  group : String
deriving DecidableEq, Repr

/-- `composite.ConnectionDraining` (only the field the code reads/writes). -/
structure ConnectionDraining where
  drainingTimeoutSec : Int
deriving DecidableEq, Repr

/-- `composite.BackendServiceConnectionTrackingPolicy`: the three fields
compared by `connectionTrackingPolicyEqual`. -/
structure ConnectionTrackingPolicy where
  trackingMode : String
  enableStrongAffinity : Bool
  idleTimeoutSec : Int
deriving DecidableEq, Repr

/-- `composite.BackendService`: the fields read or written by the embedded
functions.  Defaults are the Go zero values. -/
structure BackendService where
  name : String := ""
  protocol : String := ""
  description : String := ""
  sessionAffinity : String := ""
  loadBalancingScheme : String := ""
  healthChecks : List String := []
  network : String := ""
  fingerprint : String := ""
  backends : List Backend := []
  connectionDraining : Option ConnectionDraining := none
  connectionTrackingPolicy : Option ConnectionTrackingPolicy := none
deriving DecidableEq, Repr

/-- `network.NetworkInfo`: the two fields `EnsureL4BackendService` reads. -/
structure NetworkInfo where
  isDefault : Bool
  networkURL : String
deriving DecidableEq, Repr

/-- Modelled from the spec: `utils.EqualStringSets` compares two slices as
string sets ("health-check reference set (compared as string sets)"). -/
def EqualStringSets (a b : List String) : Bool :=
  a.all (fun x => b.contains x) && b.all (fun x => a.contains x)

/-- `const DefaultConnectionDrainingTimeoutSeconds = 30`. -/
def DefaultConnectionDrainingTimeoutSeconds : Int := 30

/-- `connectionTrackingPolicyEqual` (backends.go lines 412-419): equal when
both are nil or when all three fields agree; false when exactly one is nil. -/
def connectionTrackingPolicyEqual :
    Option ConnectionTrackingPolicy → Option ConnectionTrackingPolicy → Bool
  | none, none => true
  | some a, some b =>
      a.trackingMode == b.trackingMode &&
      a.enableStrongAffinity == b.enableStrongAffinity &&
      a.idleTimeoutSec == b.idleTimeoutSec
  | _, _ => false

/-- `backendSvcEqual` (backends.go lines 394-408).  The attached-backends
list and the connection-draining timeout are deliberately not compared;
the connection tracking policy is compared only when
`compareConnectionTracking` is set. -/
def backendSvcEqual (a b : BackendService) (compareConnectionTracking : Bool) : Bool :=
  let svcsEqual :=
    a.protocol == b.protocol &&
    a.description == b.description &&
    a.sessionAffinity == b.sessionAffinity &&
    a.loadBalancingScheme == b.loadBalancingScheme &&
    EqualStringSets a.healthChecks b.healthChecks &&
    a.network == b.network
  if compareConnectionTracking then
    svcsEqual && connectionTrackingPolicyEqual a.connectionTrackingPolicy b.connectionTrackingPolicy
  else
    svcsEqual

/-- The `expectedBS` object built by `EnsureL4BackendService`
(backends.go lines 329-351).  The Go code builds the literal and then
conditionally assigns `ConnectionTrackingPolicy`, `Network` and
`ConnectionDraining`; since the untouched fields keep their zero values the
conditional assignments are folded into this single literal.
`utils.TranslateAffinityType` and `utils.MakeL4LBServiceDescription` live
outside the provided source; the former is passed in as `translateAffinity`,
the latter's result as `desc`. -/
def l4ExpectedBS (name hcLink protocol sessionAffinity scheme desc : String)
    (translateAffinity : String → String)
    (useCTP : Bool) (ctp : Option ConnectionTrackingPolicy)
    (net : NetworkInfo) : BackendService :=
  { name := name
    protocol := protocol
    description := desc
    healthChecks := [hcLink]
    sessionAffinity := translateAffinity sessionAffinity
    loadBalancingScheme := scheme
    connectionTrackingPolicy := if useCTP then ctp else none
    network := if !net.isDefault then net.networkURL else ""
    connectionDraining :=
      if protocol == "TCP" then
        some { drainingTimeoutSec := DefaultConnectionDrainingTimeoutSeconds }
      else
        some { drainingTimeoutSec := 0 } }

/-- Outcome of the initial `composite.GetBackendService` in
`EnsureL4BackendService`: the fetched object, a not-found error (which the
code tolerates), or any other error. -/
inductive GetBSOutcome where
  | found (bs : BackendService)
  | notFound
  | failed (e : String)
deriving Repr

/-- One remote call issued by `EnsureL4BackendService`, recorded in a trace. -/
inductive RemoteCall where
  | getBS
  | createBS (bs : BackendService)
  | updateBS (bs : BackendService)
deriving DecidableEq, Repr

/-- Behaviour of the remote cloud during one `EnsureL4BackendService` call:
the initial fetch outcome, the error (if any) of a create or update, and the
result of the re-fetch performed after a successful write. -/
structure L4Cloud where
  getOutcome : GetBSOutcome
  createResult : Option String
  updateResult : Option String
  refetch : Except String BackendService

/-- `EnsureL4BackendService` (backends.go lines 306-386).  Returns the Go
result together with the trace of remote calls issued.  `composite.CreateKey`
is modelled as total (its failure mode concerns malformed scopes only). -/
def EnsureL4BackendService (cloud : L4Cloud) (useCTP : Bool)
    (name hcLink protocol sessionAffinity scheme desc : String)
    (translateAffinity : String → String)
    (net : NetworkInfo) (ctp : Option ConnectionTrackingPolicy) :
    Except String BackendService × List RemoteCall :=
  match cloud.getOutcome with
  | .failed e => (.error e, [.getBS])
  | .notFound =>
    let expectedBS := l4ExpectedBS name hcLink protocol sessionAffinity scheme desc
        translateAffinity useCTP ctp net
    match cloud.createResult with
    | some e => (.error e, [.getBS, .createBS expectedBS])
    | none => (cloud.refetch, [.getBS, .createBS expectedBS, .getBS])
  | .found bs =>
    let expectedBS := l4ExpectedBS name hcLink protocol sessionAffinity scheme desc
        translateAffinity useCTP ctp net
    if backendSvcEqual expectedBS bs useCTP then
      (.ok bs, [.getBS])
    else
      let expectedBS2 :=
        match bs.connectionDraining with
        | some cd =>
          if 0 < cd.drainingTimeoutSec ∧ protocol = "TCP" then
            { expectedBS with connectionDraining := some { drainingTimeoutSec := cd.drainingTimeoutSec } }
          else expectedBS
        | none => expectedBS
      let submitted := { expectedBS2 with fingerprint := bs.fingerprint, backends := bs.backends }
      match cloud.updateResult with
      | some e => (.error e, [.getBS, .updateBS submitted])
      | none => (cloud.refetch, [.getBS, .updateBS submitted, .getBS])

/-- Modelled from the spec: the remote error taxonomy surfaced to the core is
"not-found, in-use-by-dependent, generic failure" (spec section 6); not-found
is an HTTP error carrying its status code so that `utils.IsHTTPErrorCode`
can test it. -/
inductive RemoteError where
  | httpErr (code : Nat) (msg : String)
  | inUseByAnother (msg : String)
  | otherErr (msg : String)
deriving DecidableEq, Repr

/-- Modelled from the spec: `utils.IsHTTPErrorCode` tests an error for a
specific HTTP status code. -/
def IsHTTPErrorCode (e : RemoteError) (code : Nat) : Bool :=
  match e with
  | .httpErr c _ => c == code
  | _ => false

/-- Modelled from the spec: `utils.IsInUsedByError` recognises the
in-use-by-another-resource error class. -/
def IsInUsedByError (e : RemoteError) : Bool :=
  match e with
  | .inUseByAnother _ => true
  | _ => false

/-- `http.StatusNotFound`. -/
def StatusNotFound : Nat := 404

/-- `Delete` (backends.go lines 177-195): `deleteResult` is the outcome of
`composite.DeleteBackendService` (`none` = success).  Not-found and
in-use-by errors are swallowed; any other error is returned unchanged. -/
def Delete (deleteResult : Option RemoteError) : Option RemoteError :=
  match deleteResult with
  | none => none
  | some e =>
    if IsHTTPErrorCode e StatusNotFound || IsInUsedByError e then none
    else some e

/-- `meta.Version`: the three feature-API versions. -/
inductive ApiVersion where
  | alpha
  | beta
  | ga
deriving DecidableEq, Repr

/-- Modelled from the spec: the precedence order behind
`features.IsLowerVersion` — alpha is the lowest (most feature-rich) version,
GA the highest, so that an object recorded with alpha-only fields requires a
"lower" version to be fetched without losing information. -/
def versionPrecedence : ApiVersion → Nat
  | .alpha => 0
  | .beta => 1
  | .ga => 2

/-- Modelled from the spec: `features.IsLowerVersion v1 v2` holds when `v1`
is a lower feature-API version than `v2`. -/
def IsLowerVersion (v1 v2 : ApiVersion) : Bool :=
  versionPrecedence v1 < versionPrecedence v2

/-- `Get` (backends.go lines 153-174).  `fetch v` is the outcome of
`composite.GetBackendService` at version `v` (the key is fixed);
`versionFromDescription` models `features.VersionFromDescription`, which
recovers the feature version recorded in the object description.  When the
recorded version is lower than the requested one the object is re-fetched at
the recorded version. -/
def Get (fetch : ApiVersion → Except String BackendService)
    (versionFromDescription : String → ApiVersion)
    (version : ApiVersion) : Except String BackendService :=
  match fetch version with
  | .error e => .error e
  | .ok be =>
    if IsLowerVersion (versionFromDescription be.description) version then
      match fetch (versionFromDescription be.description) with
      | .error e => .error e
      | .ok be2 => .ok be2
    else .ok be

/-- One `compute.HealthStatus` entry (only the field the code reads). -/
structure HealthStatusRec where
  healthState : String
deriving DecidableEq, Repr

/-- `compute.BackendServiceGroupHealth`: the per-group status list; entries
are pointers in Go, hence `Option`. -/
structure BackendServiceGroupHealth where
  healthStatus : List (Option HealthStatusRec)
deriving DecidableEq, Repr

/-- Result of `Health`: the `(string, error)` pair, or `crashed` when the Go
code would dereference a nil status pointer (a nil entry after the first). -/
inductive HealthRet where
  | ret (state : String) (err : Option String)
  | crashed
deriving DecidableEq, Repr

/-- Result of the inner instance-status loop of `Health` over one group. -/
inductive InnerScan where
  | cont (r : String)
  | healthy
  | crashed
deriving DecidableEq, Repr

/-- The inner loop of `Health` (backends.go lines 229-235): walks the
statuses of one group, keeping the last state seen in `ret` and returning
immediately on the first `HEALTHY`. -/
def scanGroupStatuses : List (Option HealthStatusRec) → String → InnerScan
  | [], r => .cont r
  | none :: _, _ => .crashed
  | some st :: rest, _ =>
    if st.healthState == "HEALTHY" then .healthy
    else scanGroupStatuses rest st.healthState

/-- The outer loop of `Health` (backends.go lines 210-236): for each attached
backend, look up its group health (global or regional according to `scope`,
any other scope is an error), skip groups with no status or a nil first
status, and run the inner loop otherwise.  The second component is the trace
of group names whose health was queried. -/
def healthScan (scope : String)
    (lookupGlobal lookupRegional : String → Except String BackendServiceGroupHealth) :
    List Backend → String → HealthRet × List String
  | [], r => (.ret r none, [])
  | b :: rest, r =>
    match (if scope == "global" then some (lookupGlobal b.group)
           else if scope == "regional" then some (lookupRegional b.group)
           else none) with
    | none => (.ret "Unknown" (some ("invalid scope for Health(): " ++ scope)), [])
    | some (.error e) =>
      (.ret "Unknown" (some ("error getting health for backend: " ++ e)), [b.group])
    | some (.ok hs) =>
      match hs.healthStatus with
      | [] =>
        ((healthScan scope lookupGlobal lookupRegional rest r).1,
         b.group :: (healthScan scope lookupGlobal lookupRegional rest r).2)
      | none :: _ =>
        ((healthScan scope lookupGlobal lookupRegional rest r).1,
         b.group :: (healthScan scope lookupGlobal lookupRegional rest r).2)
      | some st :: more =>
        match scanGroupStatuses (some st :: more) r with
        | .healthy => (.ret "HEALTHY" none, [b.group])
        | .crashed => (.crashed, [b.group])
        | .cont r2 =>
          ((healthScan scope lookupGlobal lookupRegional rest r2).1,
           b.group :: (healthScan scope lookupGlobal lookupRegional rest r2).2)

/-- `Health` (backends.go lines 198-238).  `getResult` is the outcome of the
initial `b.Get`; `lookupGlobal`/`lookupRegional` model
`GetGlobalBackendServiceHealth` / `GetRegionalBackendServiceHealth` for the
fixed service name.  Returns the `(string, error)` result and the trace of
group names queried. -/
def Health (name : String)
    (getResult : Except String BackendService)
    (lookupGlobal lookupRegional : String → Except String BackendServiceGroupHealth)
    (scope : String) : HealthRet × List String :=
  match getResult with
  | .error e =>
    (.ret "Unknown" (some ("error getting backend service " ++ name ++ ": " ++ e)), [])
  | .ok be =>
    if be.backends.length == 0 then
      (.ret "Unknown" (some ("no backends found for backend service " ++ name)), [])
    else
      healthScan scope lookupGlobal lookupRegional be.backends "Unknown"

/-- Last element of a list, or the default when the list is empty.  Used to
state which instance state `Health` ends up returning. -/
def lastOr : List String → String → String
  | [], d => d
  | s :: rest, _ => lastOr rest s

/-- The instance states the `Health` loop examines inside one group: none if
the group is skipped (empty status list or nil first status), otherwise all
its non-nil states in order. -/
def groupExamined (hs : BackendServiceGroupHealth) : List String :=
  match hs.healthStatus with
  | some st :: more =>
    st.healthState :: more.filterMap (fun o => o.map HealthStatusRec.healthState)
  | _ => []

/-- All instance states examined across the groups of `bs`, in order, for a
given (global) lookup behaviour. -/
def examinedStates (lookup : String → Except String BackendServiceGroupHealth)
    (bs : List Backend) : List String :=
  (bs.map (fun b =>
    match lookup b.group with
    | .ok hs => groupExamined hs
    | .error _ => [])).flatten

/-- `negtypes.SvcPortTuple`: value identity of one exposed service port. -/
structure SvcPortTuple where
  port : Int
  name : String
  targetPort : String
deriving DecidableEq, Repr

/-- Modelled from the spec: `negtypes.PortInfo` attributes — the assigned
NEG name and the readiness-gate flag (spec section 3). -/
structure PortInfo where
  portTuple : SvcPortTuple
  negName : String
  readinessGate : Bool
deriving DecidableEq, Repr

/-- Modelled from the spec: the `(namespace, name, port-tuple)` key of a
`PortInfoMap` entry (spec section 3). -/
structure PortInfoMapKey where
  svcNamespace : String
  svcName : String
  portTuple : SvcPortTuple
deriving DecidableEq, Repr

/-- Modelled from the spec: `negtypes.PortInfoMap` as an association list
from keys to `PortInfo`. -/
abbrev PortInfoMap := List (PortInfoMapKey × PortInfo)

/-- Modelled from the spec: `PortInfoMap.Merge` — merging two maps that
assign different attributes to the same key is a hard conflict and fails;
otherwise the union is taken (spec section 3). -/
def PortInfoMap.Merge (m other : PortInfoMap) : Except String PortInfoMap :=
  if other.all (fun e => m.all (fun p => !(p.1 == e.1) || p.2 == e.2)) then
    .ok (m ++ other.filter (fun e => !(m.any (fun p => p.1 == e.1))))
  else
    .error "conflicting PortInfoMap entries for the same key"

/-- Modelled from the spec: `annotations.NegAttributes` — the optional
explicit custom NEG name for one exposed port (empty string = none).
Source name: `NegAttributes`. -/
structure NegAttributes where
  name : String := ""
deriving DecidableEq, Repr

/-- Modelled from the spec: the parsed NEG exposure configuration of a
service — `ingress: bool` plus `exposed-ports: {port: {name?}}`
(spec section 6).  Source name: `annotations.NegAnnotation` (renamed here). -/
structure NegAnn where
  ingress : Bool := false
  exposedPorts : List (Int × NegAttributes) := []
deriving DecidableEq, Repr

/-- `NEGEnabledForIngress`: the configuration enables ingress mode. -/
def NegAnn.NEGEnabledForIngress (a : NegAnn) : Bool := a.ingress

/-- `NEGExposed`: at least one port is exposed standalone. -/
def NegAnn.NEGExposed (a : NegAnn) : Bool := !a.exposedPorts.isEmpty

/-- Modelled from the spec: `negServicePorts` resolves the exposed-ports
configuration against the service's declared port set, failing when a
configured port does not exist on the service, and collects the explicit
custom names (spec sections 4.2 and 6). -/
def negServicePorts (ann : NegAnn) (knownPorts : List SvcPortTuple) :
    Except String (List SvcPortTuple × List (Int × String)) :=
  if ann.exposedPorts.all (fun pa => knownPorts.any (fun t => t.port == pa.1)) then
    .ok (ann.exposedPorts.filterMap (fun pa => knownPorts.find? (fun t => t.port == pa.1)),
         ann.exposedPorts.filterMap (fun pa =>
           if pa.2.name == "" then none else some (pa.1, pa.2.name)))
  else
    .error "port specified in the NEG configuration does not exist in the service"

/-- Modelled from the spec: `negtypes.NewPortInfoMap` builds one entry per
tuple, using the explicit custom name for the port when one is configured
and the namer-derived name otherwise. -/
def NewPortInfoMap (svcNamespace svcName : String) (tuples : List SvcPortTuple)
    (namerFn : SvcPortTuple → String) (readinessGate : Bool)
    (customNames : List (Int × String)) : PortInfoMap :=
  tuples.map (fun t =>
    ({ svcNamespace := svcNamespace, svcName := svcName, portTuple := t },
     { portTuple := t
       negName :=
         match customNames.lookup t.port with
         | some n => n
         | none => namerFn t
       readinessGate := readinessGate }))

/-- `mergeStandaloneNEGsPortInfo` (NEG controller, concatenated source lines
976-1013).  `annResult` is the outcome of `NEGAnnotation()`: a parse error,
no (or nil) configuration, or the parsed configuration.  When standalone
exposure is configured, the exposed ports are resolved, the combination of
custom names with ingress-enabled mode is rejected, and the resulting
entries are merged into `portInfoMap`. -/
def mergeStandaloneNEGsPortInfo (svcNamespace svcName : String)
    (annResult : Except String (Option NegAnn))
    (servicePorts : List SvcPortTuple)
    (namerFn : SvcPortTuple → String)
    (portInfoMap : PortInfoMap) : Except String PortInfoMap :=
  match annResult with
  | .error e => .error e
  | .ok none => .ok portInfoMap
  | .ok (some negAnn) =>
    if negAnn.NEGExposed then
      match negServicePorts negAnn servicePorts with
      | .error e => .error e
      | .ok (exposedNegSvcPort, customNames) =>
        if negAnn.NEGEnabledForIngress && !customNames.isEmpty then
          .error "custom neg name cannot be used with ingress enabled"
        else
          portInfoMap.Merge
            (NewPortInfoMap svcNamespace svcName exposedNegSvcPort namerFn true customNames)
    else .ok portInfoMap

/-- An observable action of `processService` / `syncNegStatusAnnotation`:
usage-metric bookkeeping, syncer lifecycle calls, and writes (patches) to
the Service resource.  A patch carries the resulting metadata map. -/
inductive Effect where
  | deleteNegServiceUsage
  | setNegServiceUsage
  | stopSyncer (svcNamespace svcName : String)
  | ensureSyncers (svcNamespace svcName : String) (m : PortInfoMap)
  | patchServiceMeta (anns : List (String × String))
deriving DecidableEq, Repr

/-- `annotations.NEGStatusKey`: the key of the NEG status value on the
Service resource. -/
def NEGStatusKey : String := "cloud.google.com/neg-status"

/-- Environment of one `processService` run: the outcomes the collaborators
(listers, network resolver, the four merge sources, zone getter, syncer
manager) would produce for this service key.  The merge steps are modelled
as functions on the map built so far, mirroring the in-place `Merge` calls
of the Go code. -/
structure ProcessEnv where
  serviceLookupErr : Option String := none
  serviceExists : Bool := true
  isLoadBalancerType : Bool := false
  singleStackIPv6 : Bool := false
  networkResult : Except String Unit := .ok ()
  mergeDefaultBackend : PortInfoMap → Except String PortInfoMap := fun m => .ok m
  mergeIngress : PortInfoMap → Except String PortInfoMap := fun m => .ok m
  mergeStandalone : PortInfoMap → Except String PortInfoMap := fun m => .ok m
  enableASM : Bool := false
  csmResult : Except String PortInfoMap := .ok []
  runL4 : Bool := false
  mergeVmIp : PortInfoMap → Except String PortInfoMap := fun m => .ok m
  listZonesResult : Except String (List String) := .ok []
  svcAnns : List (String × String) := []
  negStatusMarshal : List String → PortInfoMap → Except String String := fun _ _ => .ok ""
  ensureSyncersErr : Option String := none

/-- The desired-state resolution performed by `processService` (concatenated
source lines 897-932): default-backend, ingress-referenced, standalone, ASM
and L4 VM-IP entries merged in order into one map, aborting on the first
error. -/
def resolvePortInfoMap (env : ProcessEnv) : Except String PortInfoMap := do
  let m1 ← env.mergeDefaultBackend []
  let m2 ← env.mergeIngress m1
  let m3 ← env.mergeStandalone m2
  let m4 ←
    if env.enableASM then do
      let csm ← env.csmResult
      PortInfoMap.Merge m3 csm
    else pure m3
  if env.runL4 then env.mergeVmIp m4 else pure m4

/-- `syncNegStatusAnnotation` (concatenated source lines 1116-1163), renamed
`syncNegStatusAnn`.  Lists zones, re-reads the service; when the port map is
empty it deletes the status value from the service metadata if present and
otherwise performs no write; when non-empty it writes the marshalled status
only when it differs from the stored one. -/
def syncNegStatusAnn (env : ProcessEnv) (portMap : PortInfoMap) :
    Except String Unit × List Effect :=
  match env.listZonesResult with
  | .error e => (.error e, [])
  | .ok zones =>
    match env.serviceLookupErr with
    | some e => (.error e, [])
    | none =>
      if !env.serviceExists then (.ok (), [])
      else if portMap.isEmpty then
        match env.svcAnns.lookup NEGStatusKey with
        | some _ =>
          (.ok (), [.patchServiceMeta (env.svcAnns.filter (fun p => !(p.1 == NEGStatusKey)))])
        | none => (.ok (), [])
      else
        match env.negStatusMarshal zones portMap with
        | .error e => (.error e, [])
        | .ok annVal =>
          match env.svcAnns.lookup NEGStatusKey with
          | some existing =>
            if existing == annVal then (.ok (), [])
            else
              (.ok (), [.patchServiceMeta
                ((env.svcAnns.filter (fun p => !(p.1 == NEGStatusKey))) ++ [(NEGStatusKey, annVal)])])
          | none =>
            (.ok (), [.patchServiceMeta
              ((env.svcAnns.filter (fun p => !(p.1 == NEGStatusKey))) ++ [(NEGStatusKey, annVal)])])

/-- `processService` (concatenated source lines 867-950).  Returns the Go
error result together with the trace of observable actions.  The usage
collector's `DeleteNegService`/`SetNegService` calls are kept as effects;
log statements are dropped. -/
def processService (env : ProcessEnv) (svcNamespace svcName : String) :
    Except String Unit × List Effect :=
  match env.serviceLookupErr with
  | some e => (.error e, [])
  | none =>
    if !env.serviceExists then
      (.ok (), [.deleteNegServiceUsage, .stopSyncer svcNamespace svcName])
    else if !env.isLoadBalancerType && env.singleStackIPv6 then
      (.error "NEG is not supported for ipv6 only service", [])
    else
      match env.networkResult with
      | .error e => (.error e, [])
      | .ok _ =>
        match resolvePortInfoMap env with
        | .error e => (.error e, [])
        | .ok m =>
          if !m.isEmpty then
            match syncNegStatusAnn env m with
            | (.error e, effs) => (.error e, effs)
            | (.ok _, effs) =>
              match env.ensureSyncersErr with
              | some e =>
                (.error e, effs ++ [.ensureSyncers svcNamespace svcName m, .setNegServiceUsage])
              | none =>
                (.ok (), effs ++ [.ensureSyncers svcNamespace svcName m, .setNegServiceUsage])
          else
            match syncNegStatusAnn env [] with
            | (r, effs) =>
              (r, [.deleteNegServiceUsage, .stopSyncer svcNamespace svcName] ++ effs)

/-! Concrete fixtures used by the witness and counterexample theorems. -/

/-- A fully populated backend service used to exercise `backendSvcEqual`. -/
def fixtureBS1 : BackendService :=
  { protocol := "TCP", description := "d", sessionAffinity := "NONE",
    loadBalancingScheme := "EXTERNAL", healthChecks := ["hc1"], network := "net" }

/-- `fixtureBS1` with a different protocol. -/
def fixtureBS2 : BackendService := { fixtureBS1 with protocol := "UDP" }

/-- A session-affinity translation standing in for `utils.TranslateAffinityType`. -/
def fixtureTranslate : String → String :=
  fun s => if s == "ClientIP" then "CLIENT_IP" else "NONE"

/-- A default-network descriptor. -/
def fixtureNet : NetworkInfo := { isDefault := true, networkURL := "" }

/-- An existing remote TCP backend service carrying a user-overridden
connection-draining timeout of 77 seconds. -/
def fixtureExistingTCP : BackendService :=
  { name := "bs1", protocol := "TCP", description := "d", sessionAffinity := "CLIENT_IP",
    loadBalancingScheme := "INTERNAL", healthChecks := ["hc"],
    connectionDraining := some { drainingTimeoutSec := 77 } }

/-- Cloud behaviour: the initial fetch finds `fixtureExistingTCP`. -/
def fixtureCloudFound : L4Cloud :=
  { getOutcome := .found fixtureExistingTCP, createResult := none, updateResult := none,
    refetch := .error "unused" }

/-- An existing TCP service with draining timeout 55, to be reconciled to UDP. -/
def fixtureExistingA : BackendService :=
  { protocol := "TCP", sessionAffinity := "NONE",
    connectionDraining := some { drainingTimeoutSec := 55 } }

/-- An existing TCP service with draining timeout 55 and a stale description. -/
def fixtureExistingB : BackendService :=
  { protocol := "TCP", description := "old", sessionAffinity := "NONE",
    connectionDraining := some { drainingTimeoutSec := 55 } }

/-- Global health lookup: the first group is healthy, the others fail loudly
if ever queried. -/
def fixtureLgHealthy : String → Except String BackendServiceGroupHealth :=
  fun g => if g == "g1" then .ok { healthStatus := [some { healthState := "HEALTHY" }] }
           else .error "not queried"

/-- Regional health lookup that must never be consulted. -/
def fixtureLr : String → Except String BackendServiceGroupHealth :=
  fun _ => .error "regional unused"

/-- A backend service with three attached backend groups. -/
def fixtureBeThree : BackendService :=
  { backends := [{ group := "g1" }, { group := "g2" }, { group := "g3" }] }

/-- Global health lookup with no healthy instance anywhere. -/
def fixtureLgNoHealthy : String → Except String BackendServiceGroupHealth :=
  fun g =>
    if g == "g1" then
      .ok { healthStatus := [some { healthState := "UNHEALTHY" }, some { healthState := "DRAINING" }] }
    else if g == "g2" then
      .ok { healthStatus := [some { healthState := "TIMEOUT" }] }
    else .error "not queried"

/-- A backend service with two attached backend groups. -/
def fixtureBeTwo : BackendService := { backends := [{ group := "g1" }, { group := "g2" }] }

/-- A backend service with one attached backend group. -/
def fixtureBeOne : BackendService := { backends := [{ group := "g1" }] }

/-- Global lookup whose only group reports the literal state "Unknown". -/
def fixtureLgUnknownLit : String → Except String BackendServiceGroupHealth :=
  fun _ => .ok { healthStatus := [some { healthState := "Unknown" }] }

/-- Global lookup where group g1 has no status and group g2 has a nil first
status: both are skipped by `Health`. -/
def fixtureLgSkip : String → Except String BackendServiceGroupHealth :=
  fun g => if g == "g1" then .ok { healthStatus := [] }
           else .ok { healthStatus := [none, some { healthState := "HEALTHY" }] }

/-- Global lookup for a mid-list HEALTHY: g1 reports only UNHEALTHY, g2
reports DRAINING then HEALTHY followed by a nil entry, g3 fails loudly if
ever queried. -/
def fixtureLgHealthyMid : String → Except String BackendServiceGroupHealth :=
  fun g =>
    if g == "g1" then .ok { healthStatus := [some { healthState := "UNHEALTHY" }] }
    else if g == "g2" then
      .ok { healthStatus := [some { healthState := "DRAINING" },
        some { healthState := "HEALTHY" }, none] }
    else .error "not queried"

/-- Global lookup whose only group has a nil status entry after the first
one: the Go status loop dereferences it and panics. -/
def fixtureLgNilEntry : String → Except String BackendServiceGroupHealth :=
  fun _ => .ok { healthStatus := [some { healthState := "UNHEALTHY" }, none] }

/-- Global lookup that fails for every group. -/
def fixtureLgFail : String → Except String BackendServiceGroupHealth :=
  fun _ => .error "boom"

/-- Version-dependent fetch: the GA view records that alpha is required; the
alpha view carries an extra field value. -/
def fixtureFetch : ApiVersion → Except String BackendService :=
  fun v =>
    match v with
    | .ga => .ok { description := "needs-alpha" }
    | .alpha => .ok { description := "needs-alpha", network := "alpha-view" }
    | .beta => .error "unused"

/-- Description decoder: "needs-alpha" requires the alpha version. -/
def fixtureVfd : String → ApiVersion :=
  fun d => if d == "needs-alpha" then ApiVersion.alpha else .ga

/-- A NEG configuration combining ingress mode with a custom name. -/
def fixtureNegAnn : NegAnn :=
  { ingress := true, exposedPorts := [(80, { name := "custom-neg" })] }

/-- The declared ports of the fixture service. -/
def fixtureServicePorts : List SvcPortTuple := [{ port := 80, name := "http", targetPort := "8080" }]

/-- A namer for fixture port tuples. -/
def fixtureNamer : SvcPortTuple → String := fun t => "neg-" ++ t.name

/-- Process environment whose service carries a NEG status value. -/
def fixtureEnvWith : ProcessEnv := { svcAnns := [("a", "b"), (NEGStatusKey, "old")] }

/-- Process environment whose service carries no NEG status value. -/
def fixtureEnvWithout : ProcessEnv := { svcAnns := [("a", "b")] }

/-! Helper lemmas. -/

theorem equalStringSets_refl (l : List String) : EqualStringSets l l = true := by
  simp [EqualStringSets, List.all_eq_true]

theorem ctpEqual_refl (o : Option ConnectionTrackingPolicy) :
    connectionTrackingPolicyEqual o o = true := by
  cases o <;> simp [connectionTrackingPolicyEqual]

theorem backendSvcEqual_true_iff (a b : BackendService) (flag : Bool) :
    backendSvcEqual a b flag = true ↔
      ((a.protocol = b.protocol ∧ a.description = b.description ∧
        a.sessionAffinity = b.sessionAffinity ∧ a.loadBalancingScheme = b.loadBalancingScheme ∧
        EqualStringSets a.healthChecks b.healthChecks = true ∧ a.network = b.network) ∧
       (flag = true →
        connectionTrackingPolicyEqual a.connectionTrackingPolicy b.connectionTrackingPolicy = true)) := by
  cases flag <;> simp [backendSvcEqual, and_assoc]

/-! Claim theorems. -/

/-- Claim C3: `Delete` returns success when the remote delete reports
not-found, success when it reports in-use-by-another-resource, success on a
clean delete, and the underlying error for any other remote failure. -/
theorem delete_error_classes :
    (∀ m, Delete (some (.httpErr 404 m)) = none) ∧
    (∀ m, Delete (some (.inUseByAnother m)) = none) ∧
    Delete none = none ∧
    (∀ e, IsHTTPErrorCode e StatusNotFound = false → IsInUsedByError e = false →
      Delete (some e) = some e) := by
  refine ⟨fun m => ?_, fun m => ?_, rfl, fun e h1 h2 => ?_⟩
  · simp [Delete, IsHTTPErrorCode, IsInUsedByError, StatusNotFound]
  · simp [Delete, IsHTTPErrorCode, IsInUsedByError]
  · simp [Delete, h1, h2]

/-- Witness for C3: a concrete generic failure is returned unchanged. -/
theorem delete_error_classes_witness :
    IsHTTPErrorCode (.otherErr "boom") StatusNotFound = false ∧
    IsInUsedByError (.otherErr "boom") = false ∧
    Delete (some (.otherErr "boom")) = some (.otherErr "boom") :=
  ⟨rfl, rfl, delete_error_classes.2.2.2 (.otherErr "boom") rfl rfl⟩

/-- Claim C4: when the first fetch succeeds and the feature version recorded
in the fetched description is lower than the requested version, `Get`
re-fetches at that lower version and returns the re-fetched result;
otherwise it returns the object from the first fetch. -/
theorem get_version_fallback :
    ∀ (fetch : ApiVersion → Except String BackendService)
      (vfd : String → ApiVersion) (version : ApiVersion) (be : BackendService),
      fetch version = .ok be →
      (IsLowerVersion (vfd be.description) version = true →
        Get fetch vfd version = fetch (vfd be.description)) ∧
      (IsLowerVersion (vfd be.description) version = false →
        Get fetch vfd version = .ok be) := by
  intro fetch vfd version be hfetch
  constructor
  · intro hlow
    simp only [Get, hfetch, hlow, if_true]
    cases h2 : fetch (vfd be.description) <;> simp [h2]
  · intro hlow
    simp [Get, hfetch, hlow]

/-- Witness for C4: the GA fetch records that alpha is required, so `Get`
returns the alpha view. -/
theorem get_version_fallback_witness :
    fixtureFetch .ga = .ok ({ description := "needs-alpha" } : BackendService) ∧
    IsLowerVersion (fixtureVfd "needs-alpha") .ga = true ∧
    Get fixtureFetch fixtureVfd .ga =
      .ok ({ description := "needs-alpha", network := "alpha-view" } : BackendService) := by
  refine ⟨rfl, rfl, ?_⟩
  have h := (get_version_fallback fixtureFetch fixtureVfd .ga
    ({ description := "needs-alpha" } : BackendService) rfl).1 rfl
  exact h.trans rfl

/-- Claim C5: `backendSvcEqual` is reflexive, its result does not depend on
either object's attached-backends list or connection-draining timeout, and
it returns false whenever the two objects differ in protocol, description,
session affinity, load-balancing scheme, health-check set (as string sets)
or network. -/
theorem backendSvcEqual_spec :
    (∀ (a : BackendService) (flag : Bool), backendSvcEqual a a flag = true) ∧
    (∀ (a b : BackendService) (flag : Bool) (bk1 bk2 : List Backend)
       (cd1 cd2 : Option ConnectionDraining),
       backendSvcEqual { a with backends := bk1, connectionDraining := cd1 }
         { b with backends := bk2, connectionDraining := cd2 } flag
         = backendSvcEqual a b flag) ∧
    (∀ (a b : BackendService) (flag : Bool),
       (a.protocol ≠ b.protocol ∨ a.description ≠ b.description ∨
        a.sessionAffinity ≠ b.sessionAffinity ∨ a.loadBalancingScheme ≠ b.loadBalancingScheme ∨
        EqualStringSets a.healthChecks b.healthChecks = false ∨ a.network ≠ b.network) →
       backendSvcEqual a b flag = false) := by
  refine ⟨fun a flag => ?_, fun a b flag bk1 bk2 cd1 cd2 => ?_, fun a b flag h => ?_⟩
  · rw [backendSvcEqual_true_iff]
    exact ⟨⟨rfl, rfl, rfl, rfl, equalStringSets_refl _, rfl⟩, fun _ => ctpEqual_refl _⟩
  · cases flag <;> simp [backendSvcEqual]
  · have hne : backendSvcEqual a b flag ≠ true := by
      intro htrue
      rw [backendSvcEqual_true_iff] at htrue
      obtain ⟨⟨h1, h2, h3, h4, h5, h6⟩, -⟩ := htrue
      rcases h with h | h | h | h | h | h
      · exact h h1
      · exact h h2
      · exact h h3
      · exact h h4
      · rw [h5] at h; cases h
      · exact h h6
    exact Bool.eq_false_iff.mpr hne

/-- Witness for C5: two concrete services differing in protocol compare
unequal. -/
theorem backendSvcEqual_spec_witness :
    fixtureBS1.protocol ≠ fixtureBS2.protocol ∧
    backendSvcEqual fixtureBS1 fixtureBS2 true = false :=
  ⟨by decide, backendSvcEqual_spec.2.2 fixtureBS1 fixtureBS2 true (Or.inl (by decide))⟩

/-- Claim C6: when the fetched existing backend service agrees with the
desired attributes on every compared field — its connection-draining
timeout being unconstrained — `EnsureL4BackendService` issues no remote
update (or create) call after the initial fetch and returns the fetched
object unchanged. -/
theorem ensureL4_no_update_when_only_draining_differs :
    ∀ (cloud : L4Cloud) (useCTP : Bool)
      (name hcLink protocol sessionAffinity scheme desc : String)
      (translateAffinity : String → String) (net : NetworkInfo)
      (ctp : Option ConnectionTrackingPolicy) (bs expected : BackendService),
      expected = l4ExpectedBS name hcLink protocol sessionAffinity scheme desc
        translateAffinity useCTP ctp net →
      cloud.getOutcome = .found bs →
      bs.protocol = expected.protocol →
      bs.description = expected.description →
      bs.sessionAffinity = expected.sessionAffinity →
      bs.loadBalancingScheme = expected.loadBalancingScheme →
      EqualStringSets expected.healthChecks bs.healthChecks = true →
      bs.network = expected.network →
      (useCTP = true →
        connectionTrackingPolicyEqual expected.connectionTrackingPolicy
          bs.connectionTrackingPolicy = true) →
      EnsureL4BackendService cloud useCTP name hcLink protocol sessionAffinity scheme desc
        translateAffinity net ctp = (.ok bs, [.getBS]) := by
  intro cloud useCTP name hcLink protocol sessionAffinity scheme desc translateAffinity net
    ctp bs expected hexp hfound h1 h2 h3 h4 h5 h6 hctp
  have heq : backendSvcEqual expected bs useCTP = true := by
    rw [backendSvcEqual_true_iff]
    exact ⟨⟨h1.symm, h2.symm, h3.symm, h4.symm, h5, h6.symm⟩, hctp⟩
  subst hexp
  simp [EnsureL4BackendService, hfound, heq]

/-- Witness for C6: the fetched service carries draining timeout 77 where
the desired default is 30, yet no update is issued and the fetched object is
returned. -/
theorem ensureL4_no_update_witness :
    fixtureExistingTCP.connectionDraining ≠
      (l4ExpectedBS "bs1" "hc" "TCP" "ClientIP" "INTERNAL" "d" fixtureTranslate false none
        fixtureNet).connectionDraining ∧
    EnsureL4BackendService fixtureCloudFound false "bs1" "hc" "TCP" "ClientIP" "INTERNAL" "d"
      fixtureTranslate fixtureNet none = (.ok fixtureExistingTCP, [.getBS]) :=
  ⟨by decide,
   ensureL4_no_update_when_only_draining_differs fixtureCloudFound false "bs1" "hc" "TCP"
     "ClientIP" "INTERNAL" "d" fixtureTranslate fixtureNet none fixtureExistingTCP _
     rfl rfl (by decide) (by decide) (by decide) (by decide) (by decide) (by decide)
     (fun h => by cases h)⟩

/-- Claim C2: on the update path of `EnsureL4BackendService`, a non-TCP
protocol submits a connection-draining timeout of zero even though the
existing remote object has a positive timeout, while a TCP protocol submits
the existing positive timeout instead of the default. -/
theorem ensureL4_draining_timeout_rules :
    ∀ (cloud : L4Cloud) (useCTP : Bool)
      (name hcLink protocol sessionAffinity scheme desc : String)
      (translateAffinity : String → String) (net : NetworkInfo)
      (ctp : Option ConnectionTrackingPolicy) (bs : BackendService)
      (cd : ConnectionDraining),
      cloud.getOutcome = .found bs →
      bs.connectionDraining = some cd →
      0 < cd.drainingTimeoutSec →
      backendSvcEqual (l4ExpectedBS name hcLink protocol sessionAffinity scheme desc
        translateAffinity useCTP ctp net) bs useCTP = false →
      ((protocol ≠ "TCP" →
        ∃ sub rest,
          (EnsureL4BackendService cloud useCTP name hcLink protocol sessionAffinity scheme desc
            translateAffinity net ctp).2 = .getBS :: .updateBS sub :: rest ∧
          sub.connectionDraining = some { drainingTimeoutSec := 0 }) ∧
       (protocol = "TCP" →
        ∃ sub rest,
          (EnsureL4BackendService cloud useCTP name hcLink protocol sessionAffinity scheme desc
            translateAffinity net ctp).2 = .getBS :: .updateBS sub :: rest ∧
          sub.connectionDraining = some { drainingTimeoutSec := cd.drainingTimeoutSec })) := by
  intro cloud useCTP name hcLink protocol sessionAffinity scheme desc translateAffinity net
    ctp bs cd hfound hcd hpos hne
  constructor
  · intro hproto
    have hbeq : (protocol == "TCP") = false := by
      simp [hproto]
    have hcond : ¬(0 < cd.drainingTimeoutSec ∧ protocol = "TCP") := by
      rintro ⟨-, h⟩; exact hproto h
    cases hup : cloud.updateResult with
    | some e =>
      refine ⟨{ l4ExpectedBS name hcLink protocol sessionAffinity scheme desc translateAffinity
          useCTP ctp net with fingerprint := bs.fingerprint, backends := bs.backends },
        [], ?_, ?_⟩
      · simp [EnsureL4BackendService, hfound, hne, hcd, hcond, hup]
      · simp [l4ExpectedBS, hbeq]
    | none =>
      refine ⟨{ l4ExpectedBS name hcLink protocol sessionAffinity scheme desc translateAffinity
          useCTP ctp net with fingerprint := bs.fingerprint, backends := bs.backends },
        [.getBS], ?_, ?_⟩
      · simp [EnsureL4BackendService, hfound, hne, hcd, hcond, hup]
      · simp [l4ExpectedBS, hbeq]
  · intro hproto
    subst hproto
    cases hup : cloud.updateResult with
    | some e =>
      refine ⟨{ l4ExpectedBS name hcLink "TCP" sessionAffinity scheme desc translateAffinity
          useCTP ctp net with
          connectionDraining := some { drainingTimeoutSec := cd.drainingTimeoutSec },
          fingerprint := bs.fingerprint, backends := bs.backends },
        [], ?_, ?_⟩
      · simp [EnsureL4BackendService, hfound, hne, hcd, hpos, hup]
      · rfl
    | none =>
      refine ⟨{ l4ExpectedBS name hcLink "TCP" sessionAffinity scheme desc translateAffinity
          useCTP ctp net with
          connectionDraining := some { drainingTimeoutSec := cd.drainingTimeoutSec },
          fingerprint := bs.fingerprint, backends := bs.backends },
        [.getBS], ?_, ?_⟩
      · simp [EnsureL4BackendService, hfound, hne, hcd, hpos, hup]
      · rfl

/-- Witness for C2: reconciling an existing TCP service (draining 55) to UDP
submits draining 0; reconciling to TCP with a changed description submits
the preserved draining 55. -/
theorem ensureL4_draining_timeout_rules_witness :
    (∃ sub rest,
      (EnsureL4BackendService ⟨.found fixtureExistingA, none, none, .error "unused"⟩ false
        "bs2" "hc" "UDP" "None" "EXTERNAL" "d" fixtureTranslate fixtureNet none).2
        = .getBS :: .updateBS sub :: rest ∧
      sub.connectionDraining = some { drainingTimeoutSec := 0 }) ∧
    (∃ sub rest,
      (EnsureL4BackendService ⟨.found fixtureExistingB, none, none, .error "unused"⟩ false
        "bs3" "hc" "TCP" "None" "EXTERNAL" "d" fixtureTranslate fixtureNet none).2
        = .getBS :: .updateBS sub :: rest ∧
      sub.connectionDraining = some { drainingTimeoutSec := 55 }) :=
  ⟨(ensureL4_draining_timeout_rules ⟨.found fixtureExistingA, none, none, .error "unused"⟩
      false "bs2" "hc" "UDP" "None" "EXTERNAL" "d" fixtureTranslate fixtureNet none
      fixtureExistingA { drainingTimeoutSec := 55 } rfl rfl (by decide) (by decide)).1
    (by decide),
   (ensureL4_draining_timeout_rules ⟨.found fixtureExistingB, none, none, .error "unused"⟩
      false "bs3" "hc" "TCP" "None" "EXTERNAL" "d" fixtureTranslate fixtureNet none
      fixtureExistingB { drainingTimeoutSec := 55 } rfl rfl (by decide) (by decide)).2
    rfl⟩

/-- Claim C7: a NEG configuration that both enables ingress mode and assigns
a custom name to an exposed standalone port is rejected with an error by
`mergeStandaloneNEGsPortInfo`. -/
theorem standalone_custom_name_with_ingress_rejected :
    ∀ (ns n : String) (annResult : Except String (Option NegAnn))
      (sps : List SvcPortTuple) (namerFn : SvcPortTuple → String)
      (m : PortInfoMap) (negAnn : NegAnn) (pa : Int × NegAttributes),
      annResult = .ok (some negAnn) →
      negAnn.ingress = true →
      pa ∈ negAnn.exposedPorts →
      pa.2.name ≠ "" →
      ∃ e, mergeStandaloneNEGsPortInfo ns n annResult sps namerFn m = .error e := by
  intro ns n annResult sps namerFn m negAnn pa hann hing hmem hname
  subst hann
  have hexp : negAnn.NEGExposed = true := by
    simp only [NegAnn.NEGExposed, Bool.not_eq_true']
    rw [List.isEmpty_eq_false_iff_exists_mem]
    exact ⟨pa, hmem⟩
  cases hsp : negServicePorts negAnn sps with
  | error e =>
    exact ⟨e, by simp [mergeStandaloneNEGsPortInfo, hexp, hsp]⟩
  | ok pr =>
    have h2 : pr.2 = negAnn.exposedPorts.filterMap
        (fun q => if q.2.name == "" then none else some (q.1, q.2.name)) := by
      rw [negServicePorts] at hsp
      split at hsp
      · cases hsp; rfl
      · cases hsp
    have hmem2 : (pa.1, pa.2.name) ∈ pr.2 := by
      rw [h2, List.mem_filterMap]
      exact ⟨pa, hmem, by simp [hname]⟩
    have hcnb : pr.2.isEmpty = false := by
      rw [List.isEmpty_eq_false_iff_exists_mem]
      exact ⟨_, hmem2⟩
    refine ⟨"custom neg name cannot be used with ingress enabled", ?_⟩
    simp [mergeStandaloneNEGsPortInfo, hexp, hsp, NegAnn.NEGEnabledForIngress, hing, hcnb]

/-- Witness for C7: the fixture configuration (ingress enabled, port 80 with
a custom name) is rejected. -/
theorem standalone_custom_name_rejected_witness :
    fixtureNegAnn.ingress = true ∧
    ∃ e, mergeStandaloneNEGsPortInfo "ns" "svc" (.ok (some fixtureNegAnn))
      fixtureServicePorts fixtureNamer [] = .error e :=
  ⟨rfl,
   standalone_custom_name_with_ingress_rejected "ns" "svc" (.ok (some fixtureNegAnn))
     fixtureServicePorts fixtureNamer [] fixtureNegAnn (80, { name := "custom-neg" })
     rfl rfl (by decide) (by decide)⟩

/-- Claim C8: when the service still exists and the desired-state resolution
yields an empty port map, `processService` stops the service's syncers and
removes the NEG status value from the service metadata if present; when it
is absent, no patch (write) is issued at all. -/
theorem processService_empty_map_cleanup :
    ∀ (env : ProcessEnv) (ns n : String),
      env.serviceLookupErr = none →
      env.serviceExists = true →
      env.singleStackIPv6 = false →
      env.networkResult = .ok () →
      resolvePortInfoMap env = .ok [] →
      (∃ zs, env.listZonesResult = .ok zs) →
      (((env.svcAnns.lookup NEGStatusKey).isSome = true →
        processService env ns n =
          (.ok (), [.deleteNegServiceUsage, .stopSyncer ns n,
            .patchServiceMeta (env.svcAnns.filter (fun p => !(p.1 == NEGStatusKey)))])) ∧
       (env.svcAnns.lookup NEGStatusKey = none →
        processService env ns n = (.ok (), [.deleteNegServiceUsage, .stopSyncer ns n]))) := by
  intro env ns n hlook hex hip hnet hres hzs
  obtain ⟨zs, hzs⟩ := hzs
  constructor
  · intro hsome
    obtain ⟨v, hv⟩ := Option.isSome_iff_exists.mp hsome
    simp [processService, syncNegStatusAnn, hlook, hex, hip, hnet, hres, hzs, hv]
  · intro hnone
    simp [processService, syncNegStatusAnn, hlook, hex, hip, hnet, hres, hzs, hnone]

/-- Witness for C8: with the status value present it is removed by a single
patch; with it absent no patch is issued. -/
theorem processService_empty_map_cleanup_witness :
    processService fixtureEnvWith "ns" "svc" =
      (.ok (), [.deleteNegServiceUsage, .stopSyncer "ns" "svc",
        .patchServiceMeta [("a", "b")]]) ∧
    processService fixtureEnvWithout "ns" "svc" =
      (.ok (), [.deleteNegServiceUsage, .stopSyncer "ns" "svc"]) := by
  constructor
  · have h := (processService_empty_map_cleanup fixtureEnvWith "ns" "svc" rfl rfl rfl rfl
      rfl ⟨[], rfl⟩).1 (by decide)
    rw [h]
    rfl
  · exact (processService_empty_map_cleanup fixtureEnvWithout "ns" "svc" rfl rfl rfl rfl
      rfl ⟨[], rfl⟩).2 (by decide)

theorem lastOr_append :
    ∀ (xs ys : List String) (d : String), lastOr (xs ++ ys) d = lastOr ys (lastOr xs d) := by
  intro xs
  induction xs with
  | nil => intro ys d; rfl
  | cons x xs ih =>
    intro ys d
    rw [List.cons_append]
    show lastOr (xs ++ ys) x = lastOr ys (lastOr (x :: xs) d)
    exact ih ys x

theorem scanGroupStatuses_no_healthy :
    ∀ (l : List (Option HealthStatusRec)) (r : String),
      (∀ o ∈ l, ∃ st, o = some st ∧ st.healthState ≠ "HEALTHY") →
      scanGroupStatuses l r =
        .cont (lastOr (l.filterMap (fun o => o.map HealthStatusRec.healthState)) r) := by
  intro l
  induction l with
  | nil => intro r h; rfl
  | cons o rest ih =>
    intro r h
    obtain ⟨st, rfl, hne⟩ := h o (List.mem_cons_self o rest)
    have hbeq : (st.healthState == "HEALTHY") = false := by
      simp [hne]
    simp only [scanGroupStatuses, hbeq, Bool.false_eq_true, if_false,
      List.filterMap_cons, Option.map_some]
    show scanGroupStatuses rest st.healthState
      = .cont (lastOr (rest.filterMap (fun o => o.map HealthStatusRec.healthState)) st.healthState)
    exact ih st.healthState (fun o ho => h o (List.mem_cons_of_mem _ ho))

theorem examinedStates_nil_of_skipped
    (lg : String → Except String BackendServiceGroupHealth) :
    ∀ (bs : List Backend),
      (∀ b ∈ bs, ∃ hs, lg b.group = .ok hs ∧
        (hs.healthStatus = [] ∨ hs.healthStatus.head? = some none)) →
      examinedStates lg bs = [] := by
  intro bs
  induction bs with
  | nil => intro h; rfl
  | cons b rest ih =>
    intro h
    obtain ⟨hs, hlg, hdisj⟩ := h b (List.mem_cons_self b rest)
    have hge : groupExamined hs = [] := by
      rcases hdisj with h1 | h2
      · simp [groupExamined, h1]
      · cases hhs : hs.healthStatus with
        | nil => simp [groupExamined, hhs]
        | cons o tail =>
          rw [hhs] at h2
          cases o with
          | none => simp [groupExamined, hhs]
          | some st => cases h2
    simp [examinedStates, hlg, hge]
    have := ih (fun b hb => h b (List.mem_cons_of_mem _ hb))
    simpa [examinedStates] using this

theorem scopeStep_of_dispatch (scope : String)
    (lg lr lu : String → Except String BackendServiceGroupHealth) :
    ((scope = "global" ∧ lu = lg) ∨ (scope = "regional" ∧ lu = lr)) →
    ∀ g, (if scope = "global" then some (lg g)
          else if scope = "regional" then some (lr g) else none) = some (lu g) := by
  rintro (⟨rfl, rfl⟩ | ⟨rfl, rfl⟩) g <;> simp

theorem healthScan_no_healthy (scope : String)
    (lg lr lu : String → Except String BackendServiceGroupHealth)
    (hstep : ∀ g, (if scope = "global" then some (lg g)
        else if scope = "regional" then some (lr g) else none) = some (lu g)) :
    ∀ (bs : List Backend) (r : String),
      (∀ b ∈ bs, ∃ hs, lu b.group = .ok hs ∧
        (hs.healthStatus = [] ∨ hs.healthStatus.head? = some none ∨
         (∀ o ∈ hs.healthStatus, ∃ st, o = some st ∧ st.healthState ≠ "HEALTHY"))) →
      healthScan scope lg lr bs r =
        (.ret (lastOr (examinedStates lu bs) r) none, bs.map Backend.group) := by
  intro bs
  induction bs with
  | nil => intro r h; rfl
  | cons b rest ih =>
    intro r h
    obtain ⟨hs, hlu, hdisj⟩ := h b (List.mem_cons_self b rest)
    have hrest := fun b hb => h b (List.mem_cons_of_mem _ hb)
    cases hhs : hs.healthStatus with
    | nil =>
      have hstep2 : healthScan scope lg lr (b :: rest) r
          = ((healthScan scope lg lr rest r).1,
             b.group :: (healthScan scope lg lr rest r).2) := by
        simp [healthScan, hstep, hlu, hhs]
      rw [hstep2, ih r hrest]
      have hge : groupExamined hs = [] := by simp [groupExamined, hhs]
      have hex : examinedStates lu (b :: rest) = examinedStates lu rest := by
        simp [examinedStates, hlu, hge]
      rw [hex]
      rfl
    | cons o tail =>
      cases o with
      | none =>
        have hstep2 : healthScan scope lg lr (b :: rest) r
            = ((healthScan scope lg lr rest r).1,
               b.group :: (healthScan scope lg lr rest r).2) := by
          simp [healthScan, hstep, hlu, hhs]
        rw [hstep2, ih r hrest]
        have hge : groupExamined hs = [] := by simp [groupExamined, hhs]
        have hex : examinedStates lu (b :: rest) = examinedStates lu rest := by
          simp [examinedStates, hlu, hge]
        rw [hex]
        rfl
      | some st =>
        have hall : ∀ o ∈ hs.healthStatus, ∃ st, o = some st ∧ st.healthState ≠ "HEALTHY" := by
          rcases hdisj with h1 | h2 | h3
          · rw [h1] at hhs; cases hhs
          · rw [hhs] at h2; cases h2
          · exact h3
        rw [hhs] at hall
        have hscan := scanGroupStatuses_no_healthy (some st :: tail) r hall
        have hstep2 : healthScan scope lg lr (b :: rest) r
            = ((healthScan scope lg lr rest
                  (lastOr ((some st :: tail).filterMap
                    (fun o => o.map HealthStatusRec.healthState)) r)).1,
               b.group :: (healthScan scope lg lr rest
                  (lastOr ((some st :: tail).filterMap
                    (fun o => o.map HealthStatusRec.healthState)) r)).2) := by
          simp [healthScan, hstep, hlu, hhs, hscan]
        rw [hstep2, ih _ hrest]
        have hge : groupExamined hs =
            (some st :: tail).filterMap (fun o => o.map HealthStatusRec.healthState) := by
          simp [groupExamined, hhs, List.filterMap_cons]
        have hex : examinedStates lu (b :: rest) = groupExamined hs ++ examinedStates lu rest := by
          simp [examinedStates, hlu]
        rw [hex, hge, lastOr_append]
        rfl

theorem scanGroupStatuses_healthy :
    ∀ (front : List (Option HealthStatusRec)) (st : HealthStatusRec)
      (back : List (Option HealthStatusRec)) (r : String),
      (∀ o ∈ front, ∃ s, o = some s ∧ s.healthState ≠ "HEALTHY") →
      st.healthState = "HEALTHY" →
      scanGroupStatuses (front ++ some st :: back) r = .healthy := by
  intro front
  induction front with
  | nil =>
    intro st back r hf hst
    simp [scanGroupStatuses, hst]
  | cons o front2 ih =>
    intro st back r hf hst
    obtain ⟨s, rfl, hne⟩ := hf o (List.mem_cons_self o front2)
    have hbeq : (s.healthState == "HEALTHY") = false := by
      simp [hne]
    rw [List.cons_append]
    simp only [scanGroupStatuses, hbeq, Bool.false_eq_true, if_false]
    exact ih st back s.healthState (fun o ho => hf o (List.mem_cons_of_mem _ ho)) hst

theorem healthScan_healthy_within (scope : String)
    (lg lr lu : String → Except String BackendServiceGroupHealth)
    (hstep : ∀ g, (if scope = "global" then some (lg g)
        else if scope = "regional" then some (lr g) else none) = some (lu g)) :
    ∀ (pre : List Backend) (b : Backend) (post : List Backend)
      (hsb : BackendServiceGroupHealth) (front : List (Option HealthStatusRec))
      (st : HealthStatusRec) (back : List (Option HealthStatusRec)) (r : String),
      (∀ p ∈ pre, ∃ hs, lu p.group = .ok hs ∧
        (hs.healthStatus = [] ∨ hs.healthStatus.head? = some none ∨
         (∀ o ∈ hs.healthStatus, ∃ s, o = some s ∧ s.healthState ≠ "HEALTHY"))) →
      lu b.group = .ok hsb →
      hsb.healthStatus = front ++ some st :: back →
      (∀ o ∈ front, ∃ s, o = some s ∧ s.healthState ≠ "HEALTHY") →
      st.healthState = "HEALTHY" →
      healthScan scope lg lr (pre ++ b :: post) r
        = (.ret "HEALTHY" none, (pre ++ [b]).map Backend.group) := by
  intro pre
  induction pre with
  | nil =>
    intro b post hsb front st back r hpre hb hhsb hfront hst
    have hsc := scanGroupStatuses_healthy front st back r hfront hst
    cases hfr : front with
    | nil =>
      rw [hfr, List.nil_append] at hhsb
      rw [hfr, List.nil_append] at hsc
      simp [healthScan, hstep, hb, hhsb, hsc]
    | cons o front2 =>
      have hmemo : o ∈ front := by rw [hfr]; exact List.mem_cons_self o front2
      obtain ⟨s0, ho, hne0⟩ := hfront o hmemo
      rw [hfr, ho, List.cons_append] at hhsb
      rw [hfr, ho, List.cons_append] at hsc
      simp [healthScan, hstep, hb, hhsb, hsc]
  | cons p pre ih =>
    intro b post hsb front st back r hpre hb hhsb hfront hst
    obtain ⟨hs, hlu, hdisj⟩ := hpre p (List.mem_cons_self p pre)
    have hrest := fun q hq => hpre q (List.mem_cons_of_mem _ hq)
    rw [List.cons_append]
    cases hhs : hs.healthStatus with
    | nil =>
      have hstep2 : healthScan scope lg lr (p :: (pre ++ b :: post)) r
          = ((healthScan scope lg lr (pre ++ b :: post) r).1,
             p.group :: (healthScan scope lg lr (pre ++ b :: post) r).2) := by
        simp [healthScan, hstep, hlu, hhs]
      rw [hstep2, ih b post hsb front st back r hrest hb hhsb hfront hst]
      rfl
    | cons o tail =>
      cases o with
      | none =>
        have hstep2 : healthScan scope lg lr (p :: (pre ++ b :: post)) r
            = ((healthScan scope lg lr (pre ++ b :: post) r).1,
               p.group :: (healthScan scope lg lr (pre ++ b :: post) r).2) := by
          simp [healthScan, hstep, hlu, hhs]
        rw [hstep2, ih b post hsb front st back r hrest hb hhsb hfront hst]
        rfl
      | some s0 =>
        have hall : ∀ o ∈ hs.healthStatus, ∃ s, o = some s ∧ s.healthState ≠ "HEALTHY" := by
          rcases hdisj with h1 | h2 | h3
          · rw [h1] at hhs; cases hhs
          · rw [hhs] at h2; cases h2
          · exact h3
        rw [hhs] at hall
        have hsc0 := scanGroupStatuses_no_healthy (some s0 :: tail) r hall
        have hstep2 : healthScan scope lg lr (p :: (pre ++ b :: post)) r
            = ((healthScan scope lg lr (pre ++ b :: post)
                  (lastOr ((some s0 :: tail).filterMap
                    (fun o => o.map HealthStatusRec.healthState)) r)).1,
               p.group :: (healthScan scope lg lr (pre ++ b :: post)
                  (lastOr ((some s0 :: tail).filterMap
                    (fun o => o.map HealthStatusRec.healthState)) r)).2) := by
          simp [healthScan, hstep, hlu, hhs, hsc0]
        rw [hstep2, ih b post hsb front st back _ hrest hb hhsb hfront hst]
        rfl

theorem healthScan_err_lookup_failed (scope : String)
    (lg lr lu : String → Except String BackendServiceGroupHealth)
    (hstep : ∀ g, (if scope = "global" then some (lg g)
        else if scope = "regional" then some (lr g) else none) = some (lu g)) :
    ∀ (bs : List Backend) (r s e : String),
      (healthScan scope lg lr bs r).1 = .ret s (some e) →
      ∃ b, b ∈ bs ∧ ∃ err, lu b.group = .error err := by
  intro bs
  induction bs with
  | nil =>
    intro r s e h
    simp [healthScan] at h
  | cons b rest ih =>
    intro r s e h
    cases hlu : lu b.group with
    | error err => exact ⟨b, List.mem_cons_self b rest, err, hlu⟩
    | ok hs =>
      cases hhs : hs.healthStatus with
      | nil =>
        have hstep2 : healthScan scope lg lr (b :: rest) r
            = ((healthScan scope lg lr rest r).1,
               b.group :: (healthScan scope lg lr rest r).2) := by
          simp [healthScan, hstep, hlu, hhs]
        rw [hstep2] at h
        obtain ⟨b2, hb2, hf⟩ := ih r s e h
        exact ⟨b2, List.mem_cons_of_mem _ hb2, hf⟩
      | cons o tail =>
        cases o with
        | none =>
          have hstep2 : healthScan scope lg lr (b :: rest) r
              = ((healthScan scope lg lr rest r).1,
                 b.group :: (healthScan scope lg lr rest r).2) := by
            simp [healthScan, hstep, hlu, hhs]
          rw [hstep2] at h
          obtain ⟨b2, hb2, hf⟩ := ih r s e h
          exact ⟨b2, List.mem_cons_of_mem _ hb2, hf⟩
        | some s0 =>
          cases hscan : scanGroupStatuses (some s0 :: tail) r with
          | healthy =>
            have hres : healthScan scope lg lr (b :: rest) r
                = (.ret "HEALTHY" none, [b.group]) := by
              simp [healthScan, hstep, hlu, hhs, hscan]
            rw [hres] at h
            simp at h
          | crashed =>
            have hres : healthScan scope lg lr (b :: rest) r = (.crashed, [b.group]) := by
              simp [healthScan, hstep, hlu, hhs, hscan]
            rw [hres] at h
            simp at h
          | cont r2 =>
            have hstep2 : healthScan scope lg lr (b :: rest) r
                = ((healthScan scope lg lr rest r2).1,
                   b.group :: (healthScan scope lg lr rest r2).2) := by
              simp [healthScan, hstep, hlu, hhs, hscan]
            rw [hstep2] at h
            obtain ⟨b2, hb2, hf⟩ := ih r2 s e h
            exact ⟨b2, List.mem_cons_of_mem _ hb2, hf⟩

/-- Claim C9: `Health` returns "HEALTHY" with no error and stops as soon as
the first instance status equal to HEALTHY is encountered — at any position
within any group, under either valid scope (global or regional).  The groups
before it may be skipped or report only non-HEALTHY statuses, the statuses
before it in its own group are non-HEALTHY, and everything after it — the
remaining statuses of its group (even nil entries, which would otherwise
crash) and all later groups — is not evaluated: the query trace ends at that
group.  In particular, with three groups whose first group's first status is
HEALTHY, only the first group is queried. -/
theorem health_healthy_short_circuit :
    ∀ (name : String) (be : BackendService)
      (lg lr lu : String → Except String BackendServiceGroupHealth) (scope : String)
      (pre : List Backend) (b : Backend) (post : List Backend)
      (hsb : BackendServiceGroupHealth) (front : List (Option HealthStatusRec))
      (st : HealthStatusRec) (back : List (Option HealthStatusRec)),
      ((scope = "global" ∧ lu = lg) ∨ (scope = "regional" ∧ lu = lr)) →
      be.backends = pre ++ b :: post →
      (∀ p ∈ pre, ∃ hs, lu p.group = .ok hs ∧
        (hs.healthStatus = [] ∨ hs.healthStatus.head? = some none ∨
         (∀ o ∈ hs.healthStatus, ∃ s, o = some s ∧ s.healthState ≠ "HEALTHY"))) →
      lu b.group = .ok hsb →
      hsb.healthStatus = front ++ some st :: back →
      (∀ o ∈ front, ∃ s, o = some s ∧ s.healthState ≠ "HEALTHY") →
      st.healthState = "HEALTHY" →
      Health name (.ok be) lg lr scope
        = (.ret "HEALTHY" none, (pre ++ [b]).map Backend.group) := by
  intro name be lg lr lu scope pre b post hsb front st back hdisp hbe hpre hb hhsb hfront hst
  have hstep := scopeStep_of_dispatch scope lg lr lu hdisp
  have hne : be.backends ≠ [] := by
    rw [hbe]; simp
  have hlen : (be.backends.length == 0) = false := by
    simp [hne]
  have hmain := healthScan_healthy_within scope lg lr lu hstep pre b post hsb front st back
    "Unknown" hpre hb hhsb hfront hst
  rw [← hbe] at hmain
  simp [Health, hlen, hmain]

/-- Witness for C9: with three groups and HEALTHY as the very first status,
only g1 is queried; with HEALTHY in second position of the second group
(followed by a nil entry), only g1 and g2 are queried. -/
theorem health_healthy_short_circuit_witness :
    (Health "bs" (.ok fixtureBeThree) fixtureLgHealthy fixtureLr "global"
      = (.ret "HEALTHY" none, ["g1"])) ∧
    (Health "bs" (.ok fixtureBeThree) fixtureLgHealthyMid fixtureLr "global"
      = (.ret "HEALTHY" none, ["g1", "g2"])) := by
  constructor
  · exact health_healthy_short_circuit "bs" fixtureBeThree fixtureLgHealthy fixtureLr
      fixtureLgHealthy "global" [] { group := "g1" } [{ group := "g2" }, { group := "g3" }]
      { healthStatus := [some { healthState := "HEALTHY" }] } []
      { healthState := "HEALTHY" } [] (Or.inl ⟨rfl, rfl⟩) rfl
      (by intro p hp; exact absurd hp (List.not_mem_nil p)) rfl rfl
      (by intro o ho; exact absurd ho (List.not_mem_nil o)) rfl
  · exact health_healthy_short_circuit "bs" fixtureBeThree fixtureLgHealthyMid fixtureLr
      fixtureLgHealthyMid "global" [{ group := "g1" }] { group := "g2" } [{ group := "g3" }]
      { healthStatus := [some { healthState := "DRAINING" },
        some { healthState := "HEALTHY" }, none] }
      [some { healthState := "DRAINING" }] { healthState := "HEALTHY" } [none]
      (Or.inl ⟨rfl, rfl⟩) rfl
      (by
        intro p hp
        simp only [List.mem_cons, List.not_mem_nil, or_false] at hp
        subst hp
        exact ⟨{ healthStatus := [some { healthState := "UNHEALTHY" }] }, rfl,
          Or.inr (Or.inr (by
            intro o ho
            simp only [List.mem_cons, List.not_mem_nil, or_false] at ho
            subst ho
            exact ⟨{ healthState := "UNHEALTHY" }, rfl, by decide⟩))⟩)
      rfl rfl
      (by
        intro o ho
        simp only [List.mem_cons, List.not_mem_nil, or_false] at ho
        subst ho
        exact ⟨{ healthState := "DRAINING" }, rfl, by decide⟩)
      rfl

/-- Counterexample to C1: `Health` on a service whose fetch succeeds but
whose attached-backends list is empty returns an error, not a bare unknown
state — contradicting the claim that the empty list yields an explicit
unknown state with no error (no remote call failed here). -/
theorem health_empty_backends_counterexample :
    Health "foo" (.ok ({ } : BackendService)) (fun _ => .error "unused")
      (fun _ => .error "unused") "global"
      = (.ret "Unknown" (some "no backends found for backend service foo"), []) ∧
    some "no backends found for backend service foo" ≠ (none : Option String) :=
  ⟨rfl, by simp⟩

/-- Claim C1 (amended): for either valid scope, (a) an empty
attached-backends list yields the unknown state together with a "no backends
found" error; (b) with a non-empty list and every lookup succeeding with no
status reported (empty status list or nil first status per group), `Health`
returns the unknown state with no error; and (c) `Health` returns an error
only when an underlying remote lookup fails or the attached-backends list is
empty. -/
theorem health_no_status_unknown_amended :
    ∀ (name : String) (be : BackendService)
      (lg lr lu : String → Except String BackendServiceGroupHealth) (scope : String),
      ((scope = "global" ∧ lu = lg) ∨ (scope = "regional" ∧ lu = lr)) →
      ((be.backends = [] →
        Health name (.ok be) lg lr scope
          = (.ret "Unknown" (some ("no backends found for backend service " ++ name)), [])) ∧
       (be.backends ≠ [] →
        (∀ b ∈ be.backends, ∃ hs, lu b.group = .ok hs ∧
          (hs.healthStatus = [] ∨ hs.healthStatus.head? = some none)) →
        Health name (.ok be) lg lr scope
          = (.ret "Unknown" none, be.backends.map Backend.group)) ∧
       (∀ s e t, Health name (.ok be) lg lr scope = (.ret s (some e), t) →
        be.backends = [] ∨ ∃ b, b ∈ be.backends ∧ ∃ err, lu b.group = .error err)) := by
  intro name be lg lr lu scope hdisp
  have hstep := scopeStep_of_dispatch scope lg lr lu hdisp
  refine ⟨?_, ?_, ?_⟩
  · intro hnil
    simp [Health, hnil]
  · intro hne hall
    have hlen : (be.backends.length == 0) = false := by
      simp [hne]
    have hscan := healthScan_no_healthy scope lg lr lu hstep be.backends "Unknown"
      (fun b hb => by
        obtain ⟨hs, h1, h2⟩ := hall b hb
        exact ⟨hs, h1, Or.imp_right Or.inl h2⟩)
    have hnilex : examinedStates lu be.backends = [] :=
      examinedStates_nil_of_skipped lu be.backends hall
    rw [hnilex] at hscan
    simp [Health, hlen, hscan, lastOr]
  · intro s e t h
    by_cases hbe : be.backends = []
    · exact Or.inl hbe
    · refine Or.inr ?_
      have hlen : (be.backends.length == 0) = false := by
        simp [hbe]
      have hrun : Health name (.ok be) lg lr scope
          = healthScan scope lg lr be.backends "Unknown" := by
        simp [Health, hlen]
      rw [hrun] at h
      have h1 : (healthScan scope lg lr be.backends "Unknown").1 = .ret s (some e) := by
        rw [h]
      exact healthScan_err_lookup_failed scope lg lr lu hstep be.backends "Unknown" s e h1

/-- Witness for C1 (amended): two groups with no reported status yield
unknown with no error; and a run whose error stems from a failing lookup
satisfies the error-only-on-lookup-failure direction. -/
theorem health_no_status_unknown_witness :
    (Health "bs" (.ok fixtureBeTwo) fixtureLgSkip fixtureLr "global"
      = (.ret "Unknown" none, ["g1", "g2"])) ∧
    (fixtureBeOne.backends = [] ∨
      ∃ b, b ∈ fixtureBeOne.backends ∧ ∃ err, fixtureLgFail b.group = .error err) := by
  constructor
  · have h := (health_no_status_unknown_amended "bs" fixtureBeTwo fixtureLgSkip fixtureLr
      fixtureLgSkip "global" (Or.inl ⟨rfl, rfl⟩)).2.1
      (by decide)
      (by
        intro b hb
        have hb2 : b = { group := "g1" } ∨ b = { group := "g2" } := by
          simpa [fixtureBeTwo] using hb
        rcases hb2 with rfl | rfl
        · exact ⟨{ healthStatus := [] }, rfl, Or.inl rfl⟩
        · exact ⟨{ healthStatus := [none, some { healthState := "HEALTHY" }] }, rfl,
            Or.inr rfl⟩)
    rw [h]
    rfl
  · exact (health_no_status_unknown_amended "bs" fixtureBeOne fixtureLgFail fixtureLr
      fixtureLgFail "global" (Or.inl ⟨rfl, rfl⟩)).2.2
      "Unknown" "error getting health for backend: boom" ["g1"] rfl

/-- Counterexample to C10, in two parts.  First, all premises of the claim
hold (non-empty backends, every lookup succeeds, no HEALTHY status), the
single group reports one instance status — the literal state "Unknown" —
and `Health` returns "Unknown" with nil error although a group did report a
status, refuting "returns Unknown only if no group reported any instance
status".  Second, with a nil instance status after the first entry of a
group (lookups still succeeding, no HEALTHY) the code dereferences the nil
pointer and crashes instead of returning any state at all, refuting the
claimed return of the last examined state on those inputs. -/
theorem health_unknown_literal_counterexample :
    (Health "bs" (.ok fixtureBeOne) fixtureLgUnknownLit fixtureLr "global"
      = (.ret "Unknown" none, ["g1"]) ∧
     fixtureLgUnknownLit "g1"
      = .ok { healthStatus := [some { healthState := "Unknown" }] }) ∧
    Health "bs" (.ok fixtureBeOne) fixtureLgNilEntry fixtureLr "global"
      = (.crashed, ["g1"]) :=
  ⟨⟨rfl, rfl⟩, rfl⟩

/-- Claim C10 (amended): for either valid scope, with a non-empty
attached-backends list, all lookups succeeding and every reported instance
status non-nil (a nil entry after the first instead crashes the loop), and
no status HEALTHY, `Health` returns a nil error together with the state of
the last instance status examined across all groups — the sentinel
"Unknown" when no group reported any status, a value a reported literal
state "Unknown" also coincides with. -/
theorem health_last_state_amended :
    ∀ (name : String) (be : BackendService)
      (lg lr lu : String → Except String BackendServiceGroupHealth) (scope : String),
      ((scope = "global" ∧ lu = lg) ∨ (scope = "regional" ∧ lu = lr)) →
      be.backends ≠ [] →
      (∀ b ∈ be.backends, ∃ hs, lu b.group = .ok hs ∧
        ∀ o ∈ hs.healthStatus, ∃ st, o = some st ∧ st.healthState ≠ "HEALTHY") →
      Health name (.ok be) lg lr scope
        = (.ret (lastOr (examinedStates lu be.backends) "Unknown") none,
           be.backends.map Backend.group) := by
  intro name be lg lr lu scope hdisp hne hall
  have hstep := scopeStep_of_dispatch scope lg lr lu hdisp
  have hlen : (be.backends.length == 0) = false := by
    simp [hne]
  have hscan := healthScan_no_healthy scope lg lr lu hstep be.backends "Unknown"
    (fun b hb => by
      obtain ⟨hs, h1, h2⟩ := hall b hb
      exact ⟨hs, h1, Or.inr (Or.inr h2)⟩)
  simp [Health, hlen, hscan]

/-- Witness for C10 (amended): two groups with states UNHEALTHY, DRAINING
and TIMEOUT; `Health` returns the last examined state TIMEOUT with nil
error, querying both groups. -/
theorem health_last_state_witness :
    Health "bs" (.ok fixtureBeTwo) fixtureLgNoHealthy fixtureLr "global"
      = (.ret "TIMEOUT" none, ["g1", "g2"]) := by
  have h := health_last_state_amended "bs" fixtureBeTwo fixtureLgNoHealthy fixtureLr
    fixtureLgNoHealthy "global" (Or.inl ⟨rfl, rfl⟩)
    (by decide)
    (by
      intro b hb
      have hb2 : b = { group := "g1" } ∨ b = { group := "g2" } := by
        simpa [fixtureBeTwo] using hb
      rcases hb2 with rfl | rfl
      · refine ⟨{ healthStatus := [some { healthState := "UNHEALTHY" },
          some { healthState := "DRAINING" }] }, rfl, ?_⟩
        intro o ho
        simp only [List.mem_cons, List.not_mem_nil, or_false] at ho
        rcases ho with rfl | rfl
        · exact ⟨{ healthState := "UNHEALTHY" }, rfl, by decide⟩
        · exact ⟨{ healthState := "DRAINING" }, rfl, by decide⟩
      · refine ⟨{ healthStatus := [some { healthState := "TIMEOUT" }] }, rfl, ?_⟩
        intro o ho
        simp only [List.mem_cons, List.not_mem_nil, or_false] at ho
        rcases ho with rfl
        exact ⟨{ healthState := "TIMEOUT" }, rfl, by decide⟩)
  rw [h]
  rfl
